import Mathlib

/-
  Verification of the rent/utilities computation core of Rent-V7.

  Shallow embedding conventions:
  * A month string "YYYY-MM" is modeled by its month index `y*12 + m - 1`
    (exactly `ymToIndex` in `src/web/src/App.tsx`); lexicographic comparison
    of valid "YYYY-MM" strings coincides with numeric comparison of indexes,
    so the string comparisons `t.ym_from <= m` of the source become `≤` on `Nat`.
  * Monetary amounts, rates and meter values are modeled as rationals (`ℚ`);
    every rational is finite, so the `Number.isFinite` guards of the source
    hold identically in the model.
  * `null`/`undefined` is `Option.none`; the `??` operator is `Option.getD` /
    `Option.orElse`.
-/

namespace RentV7

/-- One global tariff entry (`TariffItem` in App.tsx): `ym_from` is the
month index the entry is effective from; `electric` is the legacy single
electricity rate, `electric_t1`/`electric_t2` the tiered rates. -/
structure TariffItem where
  ym_from : Nat
  cold : ℚ := 0
  hot : ℚ := 0
  sewer : ℚ := 0
  electric : ℚ := 0
  electric_t1 : Option ℚ := none
  electric_t2 : Option ℚ := none
  electric_t3 : Option ℚ := none
deriving DecidableEq, Repr

/-- The resolved global rate set returned by `effectiveTariffForMonth`. -/
structure RateSet where
  cold : ℚ
  hot : ℚ
  e1 : ℚ
  e2 : ℚ
  sewer : ℚ
  ym_from : Option Nat
deriving DecidableEq, Repr

/-- The `for (const t of tariffs)` loop of `effectiveTariffForMonth` /
`effectiveApartmentOverrideForMonth`: scan left to right keeping the entry
with the greatest effective month among those with `ym t ≤ m`. -/
def bestYmLE (ym : α → Nat) (m : Nat) : Option α → List α → Option α
  | best, [] => best
  | best, t :: rest =>
      bestYmLE ym m
        (if ym t ≤ m then
          match best with
          | none => some t
          | some b => if ym b < ym t then some t else some b
        else best) rest

/-- The fallback `tariffs.slice().sort(byYmAscending)[0]` of the source:
the first entry of a stable ascending sort, i.e. the first entry carrying
the minimal effective month. -/
def earliestYm (ym : α → Nat) : Option α → List α → Option α
  | best, [] => best
  | best, t :: rest =>
      earliestYm ym
        (match best with
         | none => some t
         | some b => if ym t < ym b then some t else some b) rest

/-- Rate set built from a tariff entry: tiered electricity rates default to
the legacy `electric` rate (`electric_t1 ?? baseE`). -/
def rateSetOf (t : TariffItem) : RateSet :=
  { cold := t.cold
    hot := t.hot
    e1 := t.electric_t1.getD t.electric
    e2 := t.electric_t2.getD t.electric
    sewer := t.sewer
    ym_from := some t.ym_from }

/-- The all-zero rate set returned for an empty catalog. -/
def zeroRateSet : RateSet :=
  { cold := 0, hot := 0, e1 := 0, e2 := 0, sewer := 0, ym_from := none }

/-- `effectiveTariffForMonth` (App.tsx, lines 693-730): pick the most recent
entry effective at or before `m`; if none qualifies fall back to the
chronologically earliest entry of the catalog. -/
def effectiveTariffForMonth (tariffs : List TariffItem) (m : Nat) : RateSet :=
  if tariffs.isEmpty then zeroRateSet
  else
    match bestYmLE TariffItem.ym_from m none tariffs with
    | some b => rateSetOf b
    | none =>
      match earliestYm TariffItem.ym_from none tariffs with
      | some b => rateSetOf b
      | none => zeroRateSet

/-- One per-apartment override entry (`ApartmentTariffItem` in App.tsx):
every rate field optional, `none` meaning "inherit from global". -/
structure ApartmentTariffItem where
  ym_from : Nat
  cold : Option ℚ := none
  hot : Option ℚ := none
  sewer : Option ℚ := none
  electric : Option ℚ := none
  electric_t1 : Option ℚ := none
  electric_t2 : Option ℚ := none
  electric_t3 : Option ℚ := none
  rent : Option ℚ := none
deriving DecidableEq, Repr

/-- The resolved per-apartment override set returned by
`effectiveApartmentOverrideForMonth`. -/
structure OverrideSet where
  cold : Option ℚ
  hot : Option ℚ
  e1 : Option ℚ
  e2 : Option ℚ
  e3 : Option ℚ
  sewer : Option ℚ
  rent : Option ℚ
  ym_from : Option Nat
deriving DecidableEq, Repr

/-- The all-`none` override set returned for an empty override timeline. -/
def emptyOverrideSet : OverrideSet :=
  { cold := none, hot := none, e1 := none, e2 := none, e3 := none,
    sewer := none, rent := none, ym_from := none }

/-- Override set built from an override entry: `e1 = electric_t1 ?? electric`,
`e2 = electric_t2 ?? electric`, `e3 = electric_t3`. -/
def overrideSetOf (b : ApartmentTariffItem) : OverrideSet :=
  { cold := b.cold
    hot := b.hot
    e1 := b.electric_t1.orElse (fun _ => b.electric)
    e2 := b.electric_t2.orElse (fun _ => b.electric)
    e3 := b.electric_t3
    sewer := b.sewer
    rent := b.rent
    ym_from := some b.ym_from }

/-- `effectiveApartmentOverrideForMonth` (App.tsx, lines 737-780): same
resolution policy as the global catalog, over the apartment's own
effective-dated timeline. -/
def effectiveApartmentOverrideForMonth
    (items : List ApartmentTariffItem) (m : Nat) : OverrideSet :=
  if items.isEmpty then emptyOverrideSet
  else
    match bestYmLE ApartmentTariffItem.ym_from m none items with
    | some b => overrideSetOf b
    | none =>
      match earliestYm ApartmentTariffItem.ym_from none items with
      | some b => overrideSetOf b
      | none => emptyOverrideSet

/-- The merged rate set returned by `effectiveTariffForMonthForSelected`. -/
structure MergedRateSet where
  cold : ℚ
  hot : ℚ
  e1 : ℚ
  e2 : ℚ
  sewer : ℚ
  rent : Option ℚ
  ym_from : Option Nat
  source : String
deriving DecidableEq, Repr

/-- `effectiveTariffForMonthForSelected` (App.tsx, lines 782-807): resolve
the global catalog and the apartment override independently, then merge
field-by-field, a non-null override field winning. -/
def effectiveTariffForMonthForSelected
    (cat : List TariffItem) (ovs : List ApartmentTariffItem) (m : Nat) :
    MergedRateSet :=
  let base := effectiveTariffForMonth cat m
  let ov := effectiveApartmentOverrideForMonth ovs m
  { cold := ov.cold.getD base.cold
    hot := ov.hot.getD base.hot
    e1 := ov.e1.getD base.e1
    e2 := ov.e2.getD base.e2
    sewer := ov.sewer.getD base.sewer
    rent := ov.rent
    ym_from := ov.ym_from.orElse (fun _ => base.ym_from)
    source :=
      if ov.ym_from.isSome then "apartment"
      else if base.ym_from.isSome then "global" else "none" }

/-! ## Meter rows and the accrual table (MetersTable.tsx, App.tsx) -/

/-- A single meter channel of a history row (`MeterCell` in MetersTable.tsx). -/
structure MeterCell where
  current : Option ℚ := none
  previous : Option ℚ := none
  delta : Option ℚ := none
  source : Option String := none
deriving DecidableEq, Repr

/-- A month row of the reading history (`HistoryRow` in MetersTable.tsx);
`t1`/`t2`/`t3` are the electric tiers. -/
structure HistoryRow where
  month : Nat := 0
  cold : MeterCell := {}
  hot : MeterCell := {}
  t1 : MeterCell := {}
  t2 : MeterCell := {}
  t3 : MeterCell := {}
  sewer : MeterCell := {}
deriving DecidableEq, Repr

/-- `calcSewerDelta` (App.tsx, lines 1740-1748): a recorded sewer delta is
used as-is; otherwise fall back to `cold.delta + hot.delta` with missing
deltas as 0 — but the source returns `sum || null`, so a zero fallback sum
becomes `null`. -/
def calcSewerDelta (h : HistoryRow) : Option ℚ :=
  match h.sewer.delta with
  | some d => some d
  | none =>
    let s := h.cold.delta.getD 0 + h.hot.delta.getD 0
    if s = 0 then none else some s

/-- `calcSumRub` (App.tsx, lines 1776-1780): drop the null parts; if nothing
is left the sum is null, otherwise the sum of the remaining parts. -/
def calcSumRub (rc rh re1 re2 rs : Option ℚ) : Option ℚ :=
  let parts := [rc, rh, re1, re2, rs].filterMap id
  if parts.isEmpty then none else some (parts.foldl (· + ·) 0)

/-- The `Math.max(1, Math.min(3, eN))` clamp applied to `electric_expected`
both in App.tsx and at the top of MetersTable.tsx. -/
def clampEN (eN : Nat) : Nat := max 1 (min 3 eN)

/-- ASCII lowercasing of a string, character by character — what JS
`.toLowerCase()` does on the ASCII source tags (`"ocr"`, `"manual"`). -/
def lowerStr (s : String) : String := String.mk (s.data.map Char.toLower)

/-- The lowercased tier-3 source string
(`String(h.meters?.electric?.t3?.source ?? "").toLowerCase()`). -/
def e3srcOf (h : HistoryRow) : String := lowerStr (h.t3.source.getD "")

/-- `isComplete` of the history table (MetersTable.tsx, lines 112-131):
cold, hot and T1 currents present; T2 present when `n ≥ 2`; T3 present and
OCR-sourced when `n ≥ 3`. -/
def tableIsComplete (h : HistoryRow) (eN : Nat) : Bool :=
  let n := clampEN eN
  !(h.cold.current.isNone) &&
  !(h.hot.current.isNone) &&
  !(decide (1 ≤ n) && h.t1.current.isNone) &&
  !(decide (2 ≤ n) && h.t2.current.isNone) &&
  !(decide (3 ≤ n) && (h.t3.current.isNone || !(e3srcOf h == "ocr")))

/-- The table's monthly total (MetersTable.tsx, lines 96-134): per-channel
accrual is `delta × rate`, the total is gated by `isComplete` and computed
by `calcSumRub` over the channels shown for `n`. -/
def tableSum (h : HistoryRow) (t : RateSet) (eN : Nat) : Option ℚ :=
  let n := clampEN eN
  let rc := h.cold.delta.map (· * t.cold)
  let rh := h.hot.delta.map (· * t.hot)
  let re1 := h.t1.delta.map (· * t.e1)
  let re2 := h.t2.delta.map (· * t.e2)
  let rs := (calcSewerDelta h).map (· * t.sewer)
  if tableIsComplete h eN then
    calcSumRub rc rh (if 1 ≤ n then re1 else none)
      (if 2 ≤ n then re2 else none) rs
  else none

/-- The completeness check of the summary card (`latestRowComputed`,
App.tsx lines 1853-1858): T3 only has to be present — its OCR source is
not checked, unlike the table's `isComplete`. -/
def summaryIsComplete (h : HistoryRow) (eN : Nat) : Bool :=
  let n := clampEN eN
  h.cold.current.isSome &&
  h.hot.current.isSome &&
  h.t1.current.isSome &&
  (decide (n < 2) || h.t2.current.isSome) &&
  (decide (n < 3) || h.t3.current.isSome)

/-! ## Apartment profile, rent and utility due policy (App.tsx) -/

/-- A calendar date, standing for the `"YYYY-MM-DD"` string `tenant_since`. -/
structure Ymd where
  y : Nat
  m : Nat
  d : Nat
deriving DecidableEq, Repr

/-- `ymToIndex` (App.tsx, lines 316-319) applied to the month `(y, m)`. -/
def ymIndex (y m : Nat) : Nat := y * 12 + m - 1

/-- The profile fields of the selected apartment that the rent/utilities
computations read (a slice of `ApartmentItem` in App.tsx). `tenant_since`
is `none` when the stored string is absent or unparseable; the ym fields
hold month indexes (`normalizeYmAny` followed by `ymToIndex`). -/
structure ApartmentProfile where
  tenant_since : Option Ymd := none
  rent_monthly : Option ℚ := none
  has_active_chat : Bool := false
  rent_paid : Bool := false
  utilities_mode : String := "by_actual_monthly"
  utilities_fixed_monthly : Option ℚ := none
  utilities_advance_amount : Option ℚ := none
  utilities_advance_cycle_months : Option Nat := none
  utilities_advance_anchor_ym : Option Nat := none
deriving DecidableEq, Repr

/-- `normalizeYmAny(tenant_since)` as a month index: the month of the
tenancy-start date (for dates in `normalizeYmAny`'s accepted year range). -/
def tenantSinceYm (p : ApartmentProfile) : Option Nat :=
  p.tenant_since.map (fun s => ymIndex s.y s.m)

/-- `effectiveRentForMonth` (App.tsx, lines 1782-1790): rent is due iff
`rent_monthly > 0`, the chat is active, and the month is not strictly
before the tenancy-start month. -/
def effectiveRentForMonth (p : ApartmentProfile) (ym : Nat) : ℚ :=
  let rent := p.rent_monthly.getD 0
  if rent ≤ 0 then 0
  else if !p.has_active_chat then 0
  else
    match tenantSinceYm p with
    | some t => if ym < t then 0 else rent
    | none => rent

/-- The advance cycle length of `plannedUtilitiesForMonth`:
`Math.max(2, Number(cycle_months ?? 3) || 3)` — absent or zero become 3,
then clamped to at least 2. -/
def advanceCycle (p : ApartmentProfile) : Nat :=
  max 2 (let c := p.utilities_advance_cycle_months.getD 3; if c = 0 then 3 else c)

/-- The advance anchor month of `plannedUtilitiesForMonth`:
`normalizeYmAny(anchor_ym) || tenantSinceYm || ym`. -/
def advanceAnchor (p : ApartmentProfile) (ym : Nat) : Nat :=
  ((p.utilities_advance_anchor_ym).orElse (fun _ => tenantSinceYm p)).getD ym

/-- The mode dispatch of `plannedUtilitiesForMonth` after the tenancy
guard. The cycle-start test `(yi - ai) % cycle === 0` is zero exactly when
`cycle` divides `yi - ai`, for the JS remainder as for `Int.emod`. -/
def plannedUtilitiesCore (p : ApartmentProfile) (ym : Nat) (actual : Option ℚ) :
    Option ℚ :=
  if p.utilities_mode = "fixed_monthly" then
    let fixed := p.utilities_fixed_monthly.getD 0
    some (if 0 < fixed then fixed else 0)
  else if p.utilities_mode = "quarterly_advance" then
    let amount := p.utilities_advance_amount.getD 0
    let isStart : Bool := ((ym : Int) - (advanceAnchor p ym : Int)) % (advanceCycle p : Int) == 0
    some (if isStart && decide (0 < amount) then amount else 0)
  else actual

/-- `plannedUtilitiesForMonth` (App.tsx, lines 1792-1813): months strictly
before the tenancy-start month owe 0; otherwise the amount due under the
apartment's utilities mode. -/
def plannedUtilitiesForMonth (p : ApartmentProfile) (ym : Nat) (actual : Option ℚ) :
    Option ℚ :=
  match tenantSinceYm p with
  | some t => if ym < t then some 0 else plannedUtilitiesCore p ym actual
  | none => plannedUtilitiesCore p ym actual

/-! ## Calendar arithmetic for the rent due date (App.tsx, lines 1815-1833).
JS `Date` values are ordered by timestamp; we order them by a day count:
`dayOrdinal y m d` counts the days of the proleptic Gregorian calendar
before day `d` of month `m` of year `y`, so adding one calendar day
(`grace.setDate(grace.getDate() + 1)`) is `+ 1` on ordinals, and `now` is a
rational day count (fractional part = time of day). -/

/-- Gregorian leap year test (what JS `Date` implements). -/
def isLeap (y : Nat) : Bool :=
  (y % 4 == 0 && !(y % 100 == 0)) || y % 400 == 0

/-- Days in month `m` (1-12) of year `y`, i.e. `new Date(y, m, 0).getDate()`. -/
def daysInMonth (y m : Nat) : Nat :=
  if m = 2 then (if isLeap y then 29 else 28)
  else if m = 4 ∨ m = 6 ∨ m = 9 ∨ m = 11 then 30
  else 31

/-- Days in all years before year `y`. -/
def daysBeforeYear : Nat → Nat
  | 0 => 0
  | y + 1 => daysBeforeYear y + (if isLeap y then 366 else 365)

/-- Days in the months of year `y` strictly before month `m` (months 1-12). -/
def daysBeforeMonth (y : Nat) : Nat → Nat
  | 0 => 0
  | m + 1 => daysBeforeMonth y m + (if m = 0 then 0 else daysInMonth y m)

/-- Day count of the date `(y, m, d)`. -/
def dayOrdinal (y m d : Nat) : Nat :=
  daysBeforeYear y + daysBeforeMonth y m + d

/-- Year component of a month index. -/
def ymYear (ym : Nat) : Nat := ym / 12

/-- Month component (1-12) of a month index. -/
def ymMonth (ym : Nat) : Nat := ym % 12 + 1

/-- Due day of month from `tenant_since`:
`Math.max(1, Math.min(31, day))`. -/
def rentDueDay (ts : Ymd) : Nat := max 1 (min 31 ts.d)

/-- Ordinal of the grace instant of month `ym`: the due date
(`new Date(y, mm - 1, Math.min(dueDay, daysInMonth))`) plus one day. -/
def rentDueGrace (ts : Ymd) (ym : Nat) : Nat :=
  let y := ymYear ym
  let mm := ymMonth ym
  dayOrdinal y mm (min (rentDueDay ts) (daysInMonth y mm)) + 1

/-- The result of `rentDueInfoForMonth` (the display text is omitted). -/
structure RentDueInfo where
  day : Option Nat
  overdue : Bool
deriving DecidableEq, Repr

/-- `rentDueInfoForMonth` (App.tsx, lines 1815-1833): due day is the
day-of-month of `tenant_since`; the overdue flag requires unpaid rent, the
current instant strictly past the grace instant, and the month being the
current server month. -/
def rentDueInfoForMonth (p : ApartmentProfile) (ym : Nat) (now : ℚ)
    (serverYm : Nat) : RentDueInfo :=
  match p.tenant_since with
  | none => { day := none, overdue := false }
  | some ts =>
    let isUnpaid := !p.rent_paid
    { day := some (rentDueDay ts)
      overdue := isUnpaid && decide ((rentDueGrace ts ym : ℚ) < now) && (ym == serverYm) }

/-! ## Carry-balance ledger of the history export (App.tsx, lines 1563-1595) -/

/-- The per-row inputs of the export loop's ledger: `planned` and `actual`
are the row's resolved `plannedDue` / `actualAccrual`, `carry_balance` the
server-supplied balance that overrides the recurrence when present. -/
structure ExportRow where
  planned : Option ℚ := none
  actual : Option ℚ := none
  carry_balance : Option ℚ := none
deriving DecidableEq, Repr

/-- One iteration of the export loop on `carryCalc`: a server-supplied
balance replaces the accumulator, otherwise
`carryCalc + Number(plannedDue || 0) - Number(actualAccrual || 0)`. -/
def exportCarryStep (c : ℚ) (r : ExportRow) : ℚ :=
  match r.carry_balance with
  | some cb => cb
  | none => c + r.planned.getD 0 - r.actual.getD 0

/-- The carry balance after processing `rows` in ascending month order,
starting from 0 (`let carryCalc = 0` before the loop). -/
def exportCarry (rows : List ExportRow) : ℚ :=
  rows.foldl exportCarryStep 0

/-! ## Bill verdict and the send-without-T3 transition -/

/-- The bill verdict computed server-side and read through
`billInfo.bill`: a reason string and the list of missing channel keys. -/
structure BillVerdict where
  reason : String := ""
  missing : List String := []
deriving DecidableEq, Repr

/-- Bill approval state (`BillState` in App.tsx): timestamps are opaque. -/
structure BillState where
  approved_at : Option ℚ := none
  sent_at : Option ℚ := none
deriving DecidableEq, Repr

/-- The render guard of the "send without T3 photo" action (App.tsx,
lines 2625-2628): reason is `missing_photos`, the missing list has length 1
and its only element is `electric_3`. -/
def offersSendWithoutT3 (b : BillVerdict) : Bool :=
  b.reason == "missing_photos" && b.missing.length == 1 &&
    b.missing.head? == some "electric_3"

/-- Modelled from the spec: the server-side handler behind
`sendBillWithoutT3Photo` (App.tsx, lines 1142-1151, posts
`/bill/send-without-t3-photo`) is not under `src/` — only its caller and
the UI guard are. Per §4.6 and §7 (IllegalTransition) of the spec the
transition is valid only when the sole missing item is the tier-3 photo,
in which case the bill moves directly to `sent`; any other missing item is
rejected with the bill state unchanged. -/
def sendWithoutT3Transition (b : BillVerdict) (st : BillState) (now : ℚ) :
    Except String BillState :=
  if b.reason == "missing_photos" && b.missing.length == 1 &&
      b.missing.head? == some "electric_3" then
    Except.ok { st with approved_at := some now, sent_at := some now }
  else
    Except.error "IllegalTransition"

/-! ## Properties of the resolution scan -/

theorem bestYmLE_eq_none_iff (ym : α → Nat) (m : Nat) (l : List α) :
    ∀ acc : Option α,
      bestYmLE ym m acc l = none ↔ acc = none ∧ ∀ t ∈ l, ¬ ym t ≤ m := by
  induction l with
  | nil => intro acc; simp [bestYmLE]
  | cons t rest ih =>
    intro acc
    simp only [bestYmLE]
    by_cases h : ym t ≤ m
    · rw [if_pos h, ih]
      constructor
      · rintro ⟨h1, -⟩
        exfalso
        cases acc with
        | none => exact Option.some_ne_none t h1
        | some b =>
          by_cases hbt : ym b < ym t <;> simp [hbt] at h1
      · rintro ⟨-, h2⟩
        exact absurd h (h2 t (List.mem_cons_self t rest))
    · rw [if_neg h, ih]
      constructor
      · rintro ⟨h1, h2⟩
        refine ⟨h1, fun u hu => ?_⟩
        rcases List.mem_cons.mp hu with hu | hu
        · subst hu; exact h
        · exact h2 u hu
      · rintro ⟨h1, h2⟩
        exact ⟨h1, fun u hu => h2 u (List.mem_cons_of_mem t hu)⟩

theorem bestYmLE_some_spec (ym : α → Nat) (m : Nat) (l : List α) :
    ∀ (acc : Option α) (r : α), bestYmLE ym m acc l = some r →
      (acc = some r ∨ (r ∈ l ∧ ym r ≤ m)) ∧
      (∀ a, acc = some a → ym a ≤ ym r) ∧
      (∀ u ∈ l, ym u ≤ m → ym u ≤ ym r) := by
  induction l with
  | nil =>
    intro acc r h
    simp only [bestYmLE] at h
    refine ⟨Or.inl h, fun a ha => ?_, by simp⟩
    rw [h] at ha
    cases ha
    exact le_refl _
  | cons t rest ih =>
    intro acc r h
    by_cases hm : ym t ≤ m
    · cases acc with
      | none =>
        simp only [bestYmLE, if_pos hm] at h
        obtain ⟨h1, h2, h3⟩ := ih (some t) r h
        have htr : ym t ≤ ym r := h2 t rfl
        refine ⟨?_, by simp, ?_⟩
        · rcases h1 with h1 | h1
          · cases h1
            exact Or.inr ⟨List.mem_cons_self _ _, hm⟩
          · exact Or.inr ⟨List.mem_cons_of_mem t h1.1, h1.2⟩
        · intro u hu hum
          rcases List.mem_cons.mp hu with hu | hu
          · subst hu; exact htr
          · exact h3 u hu hum
      | some b =>
        by_cases hbt : ym b < ym t
        · simp only [bestYmLE, if_pos hm, hbt, if_pos] at h
          obtain ⟨h1, h2, h3⟩ := ih (some t) r h
          have htr : ym t ≤ ym r := h2 t rfl
          refine ⟨?_, ?_, ?_⟩
          · rcases h1 with h1 | h1
            · cases h1
              exact Or.inr ⟨List.mem_cons_self _ _, hm⟩
            · exact Or.inr ⟨List.mem_cons_of_mem t h1.1, h1.2⟩
          · intro a ha
            cases ha
            exact le_trans (le_of_lt hbt) htr
          · intro u hu hum
            rcases List.mem_cons.mp hu with hu | hu
            · subst hu; exact htr
            · exact h3 u hu hum
        · simp only [bestYmLE, if_pos hm, hbt, if_neg] at h
          obtain ⟨h1, h2, h3⟩ := ih (some b) r h
          have hbr : ym b ≤ ym r := h2 b rfl
          refine ⟨?_, ?_, ?_⟩
          · rcases h1 with h1 | h1
            · exact Or.inl h1
            · exact Or.inr ⟨List.mem_cons_of_mem t h1.1, h1.2⟩
          · intro a ha
            cases ha
            exact hbr
          · intro u hu hum
            rcases List.mem_cons.mp hu with hu | hu
            · subst hu; exact le_trans (le_of_not_lt hbt) hbr
            · exact h3 u hu hum
    · simp only [bestYmLE, if_neg hm] at h
      obtain ⟨h1, h2, h3⟩ := ih acc r h
      refine ⟨?_, h2, ?_⟩
      · rcases h1 with h1 | h1
        · exact Or.inl h1
        · exact Or.inr ⟨List.mem_cons_of_mem t h1.1, h1.2⟩
      · intro u hu hum
        rcases List.mem_cons.mp hu with hu | hu
        · subst hu; exact absurd hum hm
        · exact h3 u hu hum

theorem bestYmLE_eq_of_max (ym : α → Nat) (m : Nat) (l : List α)
    (hnd : (l.map ym).Nodup) (b : α) (hb : b ∈ l) (hbm : ym b ≤ m)
    (hmax : ∀ u ∈ l, ym u ≤ m → ym u ≤ ym b) :
    bestYmLE ym m none l = some b := by
  cases hres : bestYmLE ym m none l with
  | none =>
    rw [bestYmLE_eq_none_iff] at hres
    exact absurd hbm (hres.2 b hb)
  | some r =>
    obtain ⟨h1, _, h3⟩ := bestYmLE_some_spec ym m l none r hres
    rcases h1 with h1 | ⟨hrmem, hrm⟩
    · exact absurd h1 (by simp)
    · have heq : ym b = ym r := le_antisymm (h3 b hb hbm) (hmax r hrmem hrm)
      rw [List.inj_on_of_nodup_map hnd hb hrmem heq]

theorem earliestYm_some_spec (ym : α → Nat) (l : List α) :
    ∀ (acc : Option α) (r : α), earliestYm ym acc l = some r →
      (acc = some r ∨ r ∈ l) ∧
      (∀ a, acc = some a → ym r ≤ ym a) ∧
      (∀ u ∈ l, ym r ≤ ym u) := by
  induction l with
  | nil =>
    intro acc r h
    simp only [earliestYm] at h
    refine ⟨Or.inl h, fun a ha => ?_, by simp⟩
    rw [h] at ha
    cases ha
    exact le_refl _
  | cons t rest ih =>
    intro acc r h
    cases acc with
    | none =>
      simp only [earliestYm] at h
      obtain ⟨h1, h2, h3⟩ := ih (some t) r h
      have htr : ym r ≤ ym t := h2 t rfl
      refine ⟨?_, by simp, ?_⟩
      · rcases h1 with h1 | h1
        · cases h1
          exact Or.inr (List.mem_cons_self _ _)
        · exact Or.inr (List.mem_cons_of_mem t h1)
      · intro u hu
        rcases List.mem_cons.mp hu with hu | hu
        · subst hu; exact htr
        · exact h3 u hu
    | some b =>
      by_cases htb : ym t < ym b
      · simp only [earliestYm, htb, if_pos] at h
        obtain ⟨h1, h2, h3⟩ := ih (some t) r h
        have htr : ym r ≤ ym t := h2 t rfl
        refine ⟨?_, ?_, ?_⟩
        · rcases h1 with h1 | h1
          · cases h1
            exact Or.inr (List.mem_cons_self _ _)
          · exact Or.inr (List.mem_cons_of_mem t h1)
        · intro a ha
          cases ha
          exact le_trans htr (le_of_lt htb)
        · intro u hu
          rcases List.mem_cons.mp hu with hu | hu
          · subst hu; exact htr
          · exact h3 u hu
      · simp only [earliestYm, htb, if_neg] at h
        obtain ⟨h1, h2, h3⟩ := ih (some b) r h
        have hbr : ym r ≤ ym b := h2 b rfl
        refine ⟨?_, ?_, ?_⟩
        · rcases h1 with h1 | h1
          · exact Or.inl h1
          · exact Or.inr (List.mem_cons_of_mem t h1)
        · intro a ha
          cases ha
          exact hbr
        · intro u hu
          rcases List.mem_cons.mp hu with hu | hu
          · subst hu; exact le_trans hbr (le_of_not_lt htb)
          · exact h3 u hu

theorem earliestYm_ne_none (ym : α → Nat) (l : List α) (hl : l ≠ []) :
    ∀ acc : Option α, earliestYm ym acc l ≠ none := by
  cases l with
  | nil => exact absurd rfl hl
  | cons t rest =>
    intro acc
    have : ∀ (l' : List α) (a : α), earliestYm ym (some a) l' ≠ none := by
      intro l'
      induction l' with
      | nil => intro a h; simp [earliestYm] at h
      | cons u us ih =>
        intro a
        simp only [earliestYm]
        by_cases hu : ym u < ym a
        · simpa [hu] using ih u
        · simpa [hu] using ih a
    cases acc with
    | none => simpa [earliestYm] using this rest t
    | some b =>
      simp only [earliestYm]
      by_cases ht : ym t < ym b
      · simpa [ht] using this rest t
      · simpa [ht] using this rest b

theorem earliestYm_eq_of_min (ym : α → Nat) (l : List α)
    (hnd : (l.map ym).Nodup) (b : α) (hb : b ∈ l)
    (hmin : ∀ u ∈ l, ym b ≤ ym u) :
    earliestYm ym none l = some b := by
  cases hres : earliestYm ym none l with
  | none => exact absurd hres (earliestYm_ne_none ym l (List.ne_nil_of_mem hb) none)
  | some r =>
    obtain ⟨h1, _, h3⟩ := earliestYm_some_spec ym l none r hres
    rcases h1 with h1 | hrmem
    · exact absurd h1 (by simp)
    · have heq : ym b = ym r := le_antisymm (hmin r hrmem) (h3 b hb)
      rw [List.inj_on_of_nodup_map hnd hb hrmem heq]

theorem effectiveTariffForMonth_of_max (ts : List TariffItem) (m : Nat)
    (hnd : (ts.map TariffItem.ym_from).Nodup) (b : TariffItem) (hb : b ∈ ts)
    (hbm : b.ym_from ≤ m)
    (hmax : ∀ u ∈ ts, u.ym_from ≤ m → u.ym_from ≤ b.ym_from) :
    effectiveTariffForMonth ts m = rateSetOf b := by
  have hne : ts.isEmpty = false := by
    cases ts
    · cases hb
    · rfl
  rw [effectiveTariffForMonth, hne,
    bestYmLE_eq_of_max TariffItem.ym_from m ts hnd b hb hbm hmax]
  rfl

theorem effectiveTariffForMonth_of_fallback (ts : List TariffItem) (m : Nat)
    (hnd : (ts.map TariffItem.ym_from).Nodup)
    (hall : ∀ u ∈ ts, m < u.ym_from) (b : TariffItem) (hb : b ∈ ts)
    (hmin : ∀ u ∈ ts, b.ym_from ≤ u.ym_from) :
    effectiveTariffForMonth ts m = rateSetOf b := by
  have hne : ts.isEmpty = false := by
    cases ts
    · cases hb
    · rfl
  have hbest : bestYmLE TariffItem.ym_from m none ts = none := by
    rw [bestYmLE_eq_none_iff]
    exact ⟨rfl, fun t ht => not_le.mpr (hall t ht)⟩
  rw [effectiveTariffForMonth, hne, hbest,
    earliestYm_eq_of_min TariffItem.ym_from ts hnd b hb hmin]
  rfl

/-- C1: tariff resolution returns the catalog entry with the greatest
`effective_from` among entries at or before the target month — so any month
in `[M2, M3)` resolves to M2's rates exactly — and when every entry is
strictly after the month it returns the chronologically earliest entry of
the catalog instead of failing. -/
theorem tariff_resolution_most_recent_applicable_or_earliest
    (ts : List TariffItem) (m : Nat)
    (hnd : (ts.map TariffItem.ym_from).Nodup) :
    (∀ b ∈ ts, b.ym_from ≤ m →
       (∀ u ∈ ts, u.ym_from ≤ m → u.ym_from ≤ b.ym_from) →
       effectiveTariffForMonth ts m = rateSetOf b) ∧
    ((∀ u ∈ ts, m < u.ym_from) →
       ∀ b ∈ ts, (∀ u ∈ ts, b.ym_from ≤ u.ym_from) →
       effectiveTariffForMonth ts m = rateSetOf b) :=
  ⟨fun b hb hbm hmax => effectiveTariffForMonth_of_max ts m hnd b hb hbm hmax,
   fun hall b hb hmin => effectiveTariffForMonth_of_fallback ts m hnd hall b hb hmin⟩

/-- A three-entry demo catalog with effective months 10 < 20 < 30. -/
def demoT1 : TariffItem := { ym_from := 10, cold := 3, hot := 4, sewer := 1, electric := 5 }

/-- Second demo entry. -/
def demoT2 : TariffItem :=
  { ym_from := 20, cold := 6, hot := 7, sewer := 2, electric := 8, electric_t2 := some 13 }

/-- Third demo entry. -/
def demoT3 : TariffItem := { ym_from := 30, cold := 9, hot := 10, sewer := 3, electric := 11 }

/-- The demo catalog, deliberately not in chronological order. -/
def demoCatalog : List TariffItem := [demoT3, demoT1, demoT2]

/-- Witness for C1: month 25 lies in `[20, 30)` and resolves to the entry
effective from 20; month 5 predates every entry and resolves to the
earliest entry (effective from 10). -/
theorem tariff_resolution_most_recent_applicable_or_earliest_witness :
    effectiveTariffForMonth demoCatalog 25 = rateSetOf demoT2 ∧
    effectiveTariffForMonth demoCatalog 5 = rateSetOf demoT1 :=
  ⟨(tariff_resolution_most_recent_applicable_or_earliest demoCatalog 25
      (by decide)).1 demoT2 (by decide) (by decide) (by decide),
   (tariff_resolution_most_recent_applicable_or_earliest demoCatalog 5
      (by decide)).2 (by decide) demoT1 (by decide) (by decide)⟩

theorem effectiveApartmentOverrideForMonth_of_max
    (ovs : List ApartmentTariffItem) (m : Nat)
    (hnd : (ovs.map ApartmentTariffItem.ym_from).Nodup)
    (b : ApartmentTariffItem) (hb : b ∈ ovs) (hbm : b.ym_from ≤ m)
    (hmax : ∀ u ∈ ovs, u.ym_from ≤ m → u.ym_from ≤ b.ym_from) :
    effectiveApartmentOverrideForMonth ovs m = overrideSetOf b := by
  have hne : ovs.isEmpty = false := by
    cases ovs
    · cases hb
    · rfl
  rw [effectiveApartmentOverrideForMonth, hne,
    bestYmLE_eq_of_max ApartmentTariffItem.ym_from m ovs hnd b hb hbm hmax]
  rfl

/-- C2: the merged rate set is computed field-by-field — a non-null resolved
override field wins, every other field takes the globally resolved value —
and the resolved override entry's non-null fields win regardless of the
global catalog, in particular over a more recent global entry. -/
theorem merged_tariff_fieldwise_and_override_precedence
    (cat : List TariffItem) (ovs : List ApartmentTariffItem) (m : Nat)
    (hnd : (ovs.map ApartmentTariffItem.ym_from).Nodup) :
    ((effectiveTariffForMonthForSelected cat ovs m).cold =
       ((effectiveApartmentOverrideForMonth ovs m).cold.getD
         (effectiveTariffForMonth cat m).cold) ∧
     (effectiveTariffForMonthForSelected cat ovs m).hot =
       ((effectiveApartmentOverrideForMonth ovs m).hot.getD
         (effectiveTariffForMonth cat m).hot) ∧
     (effectiveTariffForMonthForSelected cat ovs m).e1 =
       ((effectiveApartmentOverrideForMonth ovs m).e1.getD
         (effectiveTariffForMonth cat m).e1) ∧
     (effectiveTariffForMonthForSelected cat ovs m).e2 =
       ((effectiveApartmentOverrideForMonth ovs m).e2.getD
         (effectiveTariffForMonth cat m).e2) ∧
     (effectiveTariffForMonthForSelected cat ovs m).sewer =
       ((effectiveApartmentOverrideForMonth ovs m).sewer.getD
         (effectiveTariffForMonth cat m).sewer)) ∧
    (∀ b ∈ ovs, b.ym_from ≤ m →
       (∀ u ∈ ovs, u.ym_from ≤ m → u.ym_from ≤ b.ym_from) →
       (∀ v : ℚ, b.cold = some v →
          (effectiveTariffForMonthForSelected cat ovs m).cold = v) ∧
       (∀ v : ℚ, b.electric_t1 = some v →
          (effectiveTariffForMonthForSelected cat ovs m).e1 = v) ∧
       (∀ v : ℚ, b.rent = some v →
          (effectiveTariffForMonthForSelected cat ovs m).rent = some v)) := by
  refine ⟨⟨rfl, rfl, rfl, rfl, rfl⟩, ?_⟩
  intro b hb hbm hmax
  have hov := effectiveApartmentOverrideForMonth_of_max ovs m hnd b hb hbm hmax
  refine ⟨?_, ?_, ?_⟩
  · intro v hv
    show (effectiveApartmentOverrideForMonth ovs m).cold.getD
      (effectiveTariffForMonth cat m).cold = v
    rw [hov]
    simp [overrideSetOf, hv]
  · intro v hv
    show (effectiveApartmentOverrideForMonth ovs m).e1.getD
      (effectiveTariffForMonth cat m).e1 = v
    rw [hov]
    simp [overrideSetOf, hv, Option.orElse]
  · intro v hv
    show (effectiveApartmentOverrideForMonth ovs m).rent = some v
    rw [hov]
    simp [overrideSetOf, hv]

/-- A demo apartment override, older (month 5) than the global entry. -/
def demoOverride : ApartmentTariffItem :=
  { ym_from := 5, cold := some 7, electric_t1 := some 11, rent := some 50000 }

/-- A one-entry demo global catalog, more recent (month 20) than the override. -/
def demoCat2 : List TariffItem :=
  [{ ym_from := 20, cold := 100, hot := 9, sewer := 8, electric := 12 }]

/-- Witness for C2 at month 25: the override's non-null fields (cold, e1,
rent) win over the more recent global entry, while hot — null in the
override — inherits the global value. -/
theorem merged_tariff_fieldwise_and_override_precedence_witness :
    (effectiveTariffForMonthForSelected demoCat2 [demoOverride] 25).cold = 7 ∧
    (effectiveTariffForMonthForSelected demoCat2 [demoOverride] 25).e1 = 11 ∧
    (effectiveTariffForMonthForSelected demoCat2 [demoOverride] 25).rent = some 50000 ∧
    (effectiveTariffForMonthForSelected demoCat2 [demoOverride] 25).hot = 9 := by
  obtain ⟨-, hprec⟩ := merged_tariff_fieldwise_and_override_precedence
    demoCat2 [demoOverride] 25 (by decide)
  obtain ⟨hc, he, hr⟩ := hprec demoOverride (by decide) (by decide) (by decide)
  exact ⟨hc 7 rfl, he 11 rfl, hr 50000 rfl, by decide⟩

/-! ## The completeness gate of the accrual table -/

theorem calcSumRub_eq_none_iff (rc rh re1 re2 rs : Option ℚ) :
    calcSumRub rc rh re1 re2 rs = none ↔
      rc = none ∧ rh = none ∧ re1 = none ∧ re2 = none ∧ rs = none := by
  cases rc <;> cases rh <;> cases re1 <;> cases re2 <;> cases rs <;>
    simp [calcSumRub]

theorem clampEN_pos (eN : Nat) : 1 ≤ clampEN eN := le_max_left 1 _

/-- C3 amended: the table total is null iff at least one expected channel is
missing (the completeness gate fails) or every per-channel accrual is
itself null, i.e. no expected channel has a usable delta; in particular an
incomplete month always has a null total, never a partial sum. -/
theorem table_total_null_iff_incomplete_or_no_deltas
    (h : HistoryRow) (t : RateSet) (eN : Nat) :
    tableSum h t eN = none ↔
      (tableIsComplete h eN = false ∨
        (h.cold.delta = none ∧ h.hot.delta = none ∧ h.t1.delta = none ∧
         (2 ≤ clampEN eN → h.t2.delta = none) ∧ calcSewerDelta h = none)) := by
  have h1 := clampEN_pos eN
  by_cases hc : tableIsComplete h eN = true
  · by_cases h2 : 2 ≤ clampEN eN <;>
      simp [tableSum, hc, h1, h2, calcSumRub_eq_none_iff, Option.map_eq_none']
  · rw [Bool.not_eq_true] at hc
    simp [tableSum, hc]

/-- A row whose cold, hot and T1 currents are all present but with no
recorded delta on any channel. -/
def nullDeltaRow : HistoryRow :=
  { cold := { current := some 1 }, hot := { current := some 1 },
    t1 := { current := some 1 } }

/-- A demo rate set for the accrual table. -/
def demoRates : RateSet :=
  { cold := 3, hot := 4, e1 := 5, e2 := 6, sewer := 2, ym_from := none }

/-- C3 counterexample: with `electric_expected = 1`, a row whose cold, hot
and T1 currents are all present — so no expected channel is missing — but
whose deltas are all absent still has a null total, refuting "the total is
null if and only if at least one expected channel is missing". -/
theorem total_null_iff_missing_channel_cex :
    ¬ (tableSum nullDeltaRow demoRates 1 = none ↔
        tableIsComplete nullDeltaRow 1 = false) := by
  have hs : tableSum nullDeltaRow demoRates 1 = none := by
    norm_num [tableSum, nullDeltaRow, demoRates, calcSumRub, calcSewerDelta,
      clampEN, tableIsComplete, e3srcOf, lowerStr]
  have hc : tableIsComplete nullDeltaRow 1 = true := by decide
  intro hiff
  have hfalse := hiff.mp hs
  rw [hfalse] at hc
  exact Bool.false_ne_true hc

/-- Witness for the amended C3: the all-currents-no-deltas row evaluates to
a null total through the amended characterization. -/
theorem table_total_null_iff_incomplete_or_no_deltas_witness :
    tableSum nullDeltaRow demoRates 1 = none :=
  (table_total_null_iff_incomplete_or_no_deltas nullDeltaRow demoRates 1).mpr
    (Or.inr ⟨rfl, rfl, rfl, fun _ => rfl, by
      norm_num [calcSewerDelta, nullDeltaRow]⟩)

/-- A row complete on every channel, whose tier-3 reading is present but
manually sourced rather than OCR-sourced. -/
def manualT3Row : HistoryRow :=
  { cold := { current := some 1 }, hot := { current := some 1 },
    t1 := { current := some 1 }, t2 := { current := some 1 },
    t3 := { current := some 1, source := some "manual" } }

/-- C10 counterexample: with `electric_expected = 3` and a tier-3 reading
present but not OCR-sourced, the history-table completeness is false while
the summary-card completeness is true — the two embeddings of the
completeness predicate disagree. -/
theorem completeness_embeddings_disagree_cex :
    ¬ (tableIsComplete manualT3Row 3 = summaryIsComplete manualT3Row 3) := by
  decide

/-- C10 amended: the two completeness embeddings return the same boolean on
every row except exactly those where three electric channels are expected,
the tier-3 reading is present but not OCR-sourced, and every other expected
channel is present; on exactly those rows the history table is incomplete
while the summary card is complete. -/
theorem completeness_embeddings_agreement_characterized
    (h : HistoryRow) (eN : Nat) :
    (tableIsComplete h eN = summaryIsComplete h eN ↔
      ¬ (3 ≤ clampEN eN ∧ h.t3.current ≠ none ∧ ¬ e3srcOf h = "ocr" ∧
         h.cold.current ≠ none ∧ h.hot.current ≠ none ∧
         h.t1.current ≠ none ∧ h.t2.current ≠ none)) ∧
    ((3 ≤ clampEN eN ∧ h.t3.current ≠ none ∧ ¬ e3srcOf h = "ocr" ∧
      h.cold.current ≠ none ∧ h.hot.current ≠ none ∧
      h.t1.current ≠ none ∧ h.t2.current ≠ none) →
      tableIsComplete h eN = false ∧ summaryIsComplete h eN = true) := by
  have hn : clampEN eN = 1 ∨ clampEN eN = 2 ∨ clampEN eN = 3 := by
    unfold clampEN
    omega
  by_cases hsrc : e3srcOf h = "ocr" <;>
    simp only [tableIsComplete, summaryIsComplete] <;>
    rcases hn with hn | hn | hn <;> rw [hn] <;>
    cases hcc : h.cold.current <;> cases hhc : h.hot.current <;>
    cases h1c : h.t1.current <;> cases h2c : h.t2.current <;>
    cases h3c : h.t3.current <;>
    simp_all [e3srcOf]

/-- A row complete on every channel with an OCR-sourced tier-3 reading. -/
def ocrT3Row : HistoryRow :=
  { cold := { current := some 1 }, hot := { current := some 1 },
    t1 := { current := some 1 }, t2 := { current := some 1 },
    t3 := { current := some 1, source := some "OCR" } }

/-- Witness for the amended C10: the manually-sourced tier-3 row falls in
the disagreement region (table incomplete, summary card complete), while
the OCR-sourced row makes the two embeddings agree. -/
theorem completeness_embeddings_agreement_characterized_witness :
    (tableIsComplete manualT3Row 3 = false ∧
      summaryIsComplete manualT3Row 3 = true) ∧
    tableIsComplete ocrT3Row 3 = summaryIsComplete ocrT3Row 3 :=
  ⟨(completeness_embeddings_agreement_characterized manualT3Row 3).2 (by decide),
   (completeness_embeddings_agreement_characterized ocrT3Row 3).1.mpr (by decide)⟩

/-! ## Utility due policy: quarterly advance -/

/-- C4 amended: in `quarterly_advance` mode, for a month at or after the
tenancy start, the due equals `utilities_advance_amount` exactly when the
cycle index `monthIndex(target) − monthIndex(anchor)` is divisible by the
cycle length AND the advance amount is positive, and 0 in every other
month; in particular with a positive amount the due is nonzero exactly at
the cycle-start months. -/
theorem quarterly_advance_due (p : ApartmentProfile) (ym : Nat)
    (actual : Option ℚ) (hm : p.utilities_mode = "quarterly_advance")
    (hten : ∀ t, tenantSinceYm p = some t → t ≤ ym) :
    plannedUtilitiesForMonth p ym actual =
      some (if ((ym : Int) - (advanceAnchor p ym : Int)) % (advanceCycle p : Int) = 0
              ∧ 0 < p.utilities_advance_amount.getD 0
            then p.utilities_advance_amount.getD 0 else 0) ∧
    (0 < p.utilities_advance_amount.getD 0 →
      (plannedUtilitiesForMonth p ym actual ≠ some 0 ↔
        ((ym : Int) - (advanceAnchor p ym : Int)) % (advanceCycle p : Int) = 0)) := by
  have hfix : p.utilities_mode = "fixed_monthly" → False := by
    rw [hm]; intro hcontra; exact absurd hcontra (by decide)
  have hcore : plannedUtilitiesForMonth p ym actual =
      plannedUtilitiesCore p ym actual := by
    unfold plannedUtilitiesForMonth
    cases hts : tenantSinceYm p with
    | none => rfl
    | some t =>
      have := hten t hts
      simp [not_lt.mpr this]
  have heq : plannedUtilitiesForMonth p ym actual =
      some (if ((ym : Int) - (advanceAnchor p ym : Int)) % (advanceCycle p : Int) = 0
              ∧ 0 < p.utilities_advance_amount.getD 0
            then p.utilities_advance_amount.getD 0 else 0) := by
    rw [hcore]
    unfold plannedUtilitiesCore
    rw [if_neg (fun hcontra => hfix hcontra), if_pos hm]
    by_cases hs : ((ym : Int) - (advanceAnchor p ym : Int)) % (advanceCycle p : Int) = 0 <;>
      by_cases ha : 0 < p.utilities_advance_amount.getD 0 <;>
      simp [hs, ha]
  refine ⟨heq, fun ha => ?_⟩
  rw [heq]
  by_cases hs : ((ym : Int) - (advanceAnchor p ym : Int)) % (advanceCycle p : Int) = 0
  · simp [hs, ha, ne_of_gt ha]
  · simp [hs]

/-- A quarterly-advance profile with a negative advance amount. -/
def negAdvanceProfile : ApartmentProfile :=
  { utilities_mode := "quarterly_advance",
    utilities_advance_amount := some (-1),
    utilities_advance_cycle_months := some 3,
    utilities_advance_anchor_ym := some 0 }

/-- C4 counterexample: at a cycle-start month (cycle index 0) with
`utilities_advance_amount = -1` the code returns a due of 0, not the
advance amount — the claim's "due equals `utilities_advance_amount` exactly
when the cycle index is divisible by `cycle_months`" fails for non-positive
amounts. -/
theorem quarterly_advance_negative_amount_cex :
    ((0 : Int) - (advanceAnchor negAdvanceProfile 0 : Int)) %
        (advanceCycle negAdvanceProfile : Int) = 0 ∧
    plannedUtilitiesForMonth negAdvanceProfile 0 none = some 0 ∧
    negAdvanceProfile.utilities_advance_amount.getD 0 ≠ 0 := by
  refine ⟨by decide, ?_, by decide⟩
  simp [plannedUtilitiesForMonth, plannedUtilitiesCore, tenantSinceYm,
    negAdvanceProfile, advanceAnchor, advanceCycle]

/-- A quarterly-advance profile: 900 per cycle of 3 months anchored at
month index 24312 (2026-01). -/
def advProfile : ApartmentProfile :=
  { utilities_mode := "quarterly_advance",
    utilities_advance_amount := some 900,
    utilities_advance_cycle_months := some 3,
    utilities_advance_anchor_ym := some 24312 }

/-- Witness for the amended C4: with cycle 3 anchored at 2026-01
(index 24312), month 24315 (2026-04) owes the full advance and month 24313
(2026-02) owes 0. -/
theorem quarterly_advance_due_witness :
    plannedUtilitiesForMonth advProfile 24315 none = some 900 ∧
    plannedUtilitiesForMonth advProfile 24313 none = some 0 := by
  constructor
  · rw [(quarterly_advance_due advProfile 24315 none rfl
      (fun t ht => by simp [tenantSinceYm, advProfile] at ht)).1]
    norm_num [advProfile, advanceAnchor, advanceCycle]
  · rw [(quarterly_advance_due advProfile 24313 none rfl
      (fun t ht => by simp [tenantSinceYm, advProfile] at ht)).1]
    norm_num [advProfile, advanceAnchor, advanceCycle]

/-! ## Carry-balance ledger -/

theorem exportCarry_foldl_sum (l : List ExportRow) :
    ∀ c : ℚ, (∀ r ∈ l, r.carry_balance = none) →
      l.foldl exportCarryStep c =
        c + (l.map (fun r => r.planned.getD 0 - r.actual.getD 0)).sum := by
  induction l with
  | nil => intro c _; simp
  | cons r rest ih =>
    intro c hall
    have hr : r.carry_balance = none := hall r (List.mem_cons_self r rest)
    have hrest : ∀ x ∈ rest, x.carry_balance = none :=
      fun x hx => hall x (List.mem_cons_of_mem r hx)
    simp only [List.foldl_cons, List.map_cons, List.sum_cons]
    rw [ih _ hrest]
    simp only [exportCarryStep, hr]
    ring

/-- C5: the export ledger starts at 0, obeys
`carry[m] = carry[m-1] + due[m] − actual[m]` with nulls as 0, and therefore
after processing any row sequence (with no server-supplied balance) equals
the sum of the per-month differences `due − actual`. -/
theorem carry_balance_recurrence_and_additivity :
    exportCarry ([] : List ExportRow) = 0 ∧
    (∀ (rows : List ExportRow) (r : ExportRow), r.carry_balance = none →
       exportCarry (rows ++ [r]) =
         exportCarry rows + r.planned.getD 0 - r.actual.getD 0) ∧
    (∀ rows : List ExportRow, (∀ r ∈ rows, r.carry_balance = none) →
       exportCarry rows =
         (rows.map (fun r => r.planned.getD 0 - r.actual.getD 0)).sum) := by
  refine ⟨rfl, ?_, ?_⟩
  · intro rows r hr
    unfold exportCarry
    rw [List.foldl_append]
    simp [exportCarryStep, hr]
  · intro rows hall
    have := exportCarry_foldl_sum rows 0 hall
    unfold exportCarry
    rw [this, zero_add]

/-- Demo ledger rows: dues 100 and 50, actuals 80 and none. -/
def demoLedger : List ExportRow :=
  [{ planned := some 100, actual := some 80 }, { planned := some 50 }]

/-- Witness for C5: the demo ledger's carry equals the sum of its
`due − actual` differences, and that value is 70. -/
theorem carry_balance_recurrence_and_additivity_witness :
    exportCarry demoLedger =
      (demoLedger.map (fun r => r.planned.getD 0 - r.actual.getD 0)).sum ∧
    exportCarry demoLedger = 70 := by
  refine ⟨carry_balance_recurrence_and_additivity.2.2 demoLedger ?_, ?_⟩
  · intro r hr
    simp [demoLedger] at hr
    rcases hr with hr | hr <;> rw [hr]
  · norm_num [exportCarry, exportCarryStep, demoLedger]

/-! ## Sewer delta fallback -/

/-- C6 amended: a recorded sewer delta is used as-is; an unrecorded one
falls back to `cold.delta + hot.delta` (missing deltas contributing 0) —
but only when that sum is nonzero: a zero fallback sum yields a null sewer
delta rather than 0. -/
theorem sewer_delta_recorded_or_fallback (h : HistoryRow) :
    (∀ d : ℚ, h.sewer.delta = some d → calcSewerDelta h = some d) ∧
    (h.sewer.delta = none →
      calcSewerDelta h =
        (if h.cold.delta.getD 0 + h.hot.delta.getD 0 = 0 then none
         else some (h.cold.delta.getD 0 + h.hot.delta.getD 0))) := by
  constructor
  · intro d hd
    simp [calcSewerDelta, hd]
  · intro hd
    simp [calcSewerDelta, hd]

/-- A row with no recorded sewer delta and zero cold and hot deltas. -/
def zeroDeltaRow : HistoryRow :=
  { cold := { delta := some 0 }, hot := { delta := some 0 } }

/-- C6 counterexample: with no recorded sewer delta and
`cold.delta + hot.delta = 0`, the code yields a null sewer delta, not the
claimed `cold.delta + hot.delta` (which is 0). -/
theorem sewer_delta_zero_fallback_cex :
    zeroDeltaRow.sewer.delta = none ∧
    calcSewerDelta zeroDeltaRow ≠
      some (zeroDeltaRow.cold.delta.getD 0 + zeroDeltaRow.hot.delta.getD 0) := by
  constructor
  · rfl
  · have : calcSewerDelta zeroDeltaRow = none := by
      norm_num [calcSewerDelta, zeroDeltaRow]
    rw [this]
    exact fun hcontra => Option.noConfusion hcontra

/-- A row with a recorded sewer delta of 9. -/
def recordedSewerRow : HistoryRow := { sewer := { delta := some 9 } }

/-- A row with no sewer delta and cold/hot deltas 3 and 4. -/
def fallbackSewerRow : HistoryRow :=
  { cold := { delta := some 3 }, hot := { delta := some 4 } }

/-- Witness for the amended C6: a recorded sewer delta of 9 is used as-is;
an unrecorded one with cold 3 and hot 4 falls back to 7. -/
theorem sewer_delta_recorded_or_fallback_witness :
    calcSewerDelta recordedSewerRow = some 9 ∧
    calcSewerDelta fallbackSewerRow = some 7 := by
  constructor
  · exact (sewer_delta_recorded_or_fallback recordedSewerRow).1 9 rfl
  · rw [(sewer_delta_recorded_or_fallback fallbackSewerRow).2 rfl]
    norm_num [fallbackSewerRow]

/-! ## Rent amount guard -/

/-- C7: the rent amount equals `rent_monthly` exactly when `rent_monthly`
is positive, the chat is active, and the month is at or after the
tenancy-start month; in every other case — in particular any month strictly
before the tenancy-start month — it is 0. -/
theorem rent_amount_guard (p : ApartmentProfile) (ym t : Nat)
    (hts : tenantSinceYm p = some t) :
    effectiveRentForMonth p ym =
      (if 0 < p.rent_monthly.getD 0 ∧ p.has_active_chat = true ∧ t ≤ ym
       then p.rent_monthly.getD 0 else 0) := by
  unfold effectiveRentForMonth
  rw [hts]
  by_cases h1 : 0 < p.rent_monthly.getD 0
  · rw [if_neg (not_le.mpr h1)]
    by_cases h2 : p.has_active_chat
    · by_cases h3 : ym < t
      · simp [h2, h3, not_le.mpr h3]
      · simp [h2, h3, not_lt.mp h3, h1]
    · simp [h2, Bool.not_eq_true _ ▸ h2]
  · rw [if_pos (not_lt.mp h1)]
    rw [if_neg (fun hcontra => h1 hcontra.1)]

/-- A demo profile: rent 40000, active chat, tenancy since 2026-01-15. -/
def rentProfile : ApartmentProfile :=
  { tenant_since := some { y := 2026, m := 1, d := 15 },
    rent_monthly := some 40000,
    has_active_chat := true }

/-- Witness for C7: month 2026-03 (index 24314) owes the full rent, month
2025-12 (index 24311) — strictly before the tenancy-start month — owes 0. -/
theorem rent_amount_guard_witness :
    effectiveRentForMonth rentProfile 24314 = 40000 ∧
    effectiveRentForMonth rentProfile 24311 = 0 := by
  constructor
  · rw [rent_amount_guard rentProfile 24314 24312 rfl]
    norm_num [rentProfile]
  · rw [rent_amount_guard rentProfile 24311 24312 rfl]
    norm_num [rentProfile]

/-! ## Rent overdue flag -/

/-- C8: the rent-overdue flag is true exactly when the rent is unpaid, the
current instant is strictly past the month's due date (the day-of-month of
`tenant_since`, clamped into the month) plus one day, and the month is the
current server month; in particular it is never true for any month other
than the server month, regardless of payment status. -/
theorem rent_overdue_iff (p : ApartmentProfile) (ym : Nat) (now : ℚ)
    (serverYm : Nat) (ts : Ymd) (hts : p.tenant_since = some ts) :
    ((rentDueInfoForMonth p ym now serverYm).overdue = true ↔
       (p.rent_paid = false ∧ (rentDueGrace ts ym : ℚ) < now ∧ ym = serverYm)) ∧
    (ym ≠ serverYm → (rentDueInfoForMonth p ym now serverYm).overdue = false) := by
  unfold rentDueInfoForMonth
  rw [hts]
  constructor
  · simp [Bool.and_eq_true, and_assoc]
  · intro hne
    simp [hne]

/-- A demo profile for the overdue flag: unpaid rent, tenancy since the
10th of month 2 of year 1 (month index 13). -/
def overdueProfile : ApartmentProfile :=
  { tenant_since := some { y := 1, m := 2, d := 10 } }

/-- Witness for C8: in the server month 13 the flag is raised one day past
the due day (grace ordinal 408, now 409); for the past month 12 it stays
false even though the rent is unpaid. -/
theorem rent_overdue_iff_witness :
    (rentDueInfoForMonth overdueProfile 13 409 13).overdue = true ∧
    (rentDueInfoForMonth overdueProfile 12 409 13).overdue = false := by
  constructor
  · refine (rent_overdue_iff overdueProfile 13 409 13 ⟨1, 2, 10⟩ rfl).1.mpr
      ⟨rfl, ?_, rfl⟩
    have hg : rentDueGrace ⟨1, 2, 10⟩ 13 = 408 := by decide
    rw [hg]
    norm_num
  · exact (rent_overdue_iff overdueProfile 12 409 13 ⟨1, 2, 10⟩ rfl).2 (by decide)

/-! ## The send-without-T3-photo transition -/

theorem missing_singleton_iff (l : List String) :
    (l.length = 1 ∧ l.head? = some "electric_3") ↔ l = ["electric_3"] := by
  constructor
  · rintro ⟨h1, h2⟩
    obtain ⟨a, rfl⟩ := List.length_eq_one.mp h1
    simp at h2
    rw [h2]
  · rintro rfl
    exact ⟨rfl, rfl⟩

/-- C9: the send-without-T3 action is offered exactly when the bill reason
is `missing_photos` and the missing list is exactly `["electric_3"]`; under
any other verdict the transition is rejected as an illegal transition with
the bill state unchanged, and under exactly that verdict it moves the bill
directly to sent. -/
theorem send_without_t3_offered_iff_sole_t3_missing
    (b : BillVerdict) (st : BillState) (now : ℚ) :
    (offersSendWithoutT3 b = true ↔
      (b.reason = "missing_photos" ∧ b.missing = ["electric_3"])) ∧
    (¬ (b.reason = "missing_photos" ∧ b.missing = ["electric_3"]) →
      sendWithoutT3Transition b st now = Except.error "IllegalTransition") ∧
    (b.reason = "missing_photos" ∧ b.missing = ["electric_3"] →
      sendWithoutT3Transition b st now =
        Except.ok { st with approved_at := some now, sent_at := some now }) := by
  have hbool : (b.reason == "missing_photos" && b.missing.length == 1 &&
      (b.missing.head? == some "electric_3")) = true ↔
      (b.reason = "missing_photos" ∧ b.missing = ["electric_3"]) := by
    rw [Bool.and_eq_true, Bool.and_eq_true]
    simp only [beq_iff_eq]
    constructor
    · rintro ⟨⟨h1, h2⟩, h3⟩
      exact ⟨h1, (missing_singleton_iff b.missing).mp ⟨h2, h3⟩⟩
    · rintro ⟨h1, h2⟩
      have hm := (missing_singleton_iff b.missing).mpr h2
      exact ⟨⟨h1, hm.1⟩, hm.2⟩
  refine ⟨hbool, ?_, ?_⟩
  · intro hn
    simp only [sendWithoutT3Transition]
    rw [if_neg (fun hcond => hn (hbool.mp hcond))]
  · intro hy
    simp only [sendWithoutT3Transition]
    rw [if_pos (hbool.mpr hy)]

/-- A bill verdict whose sole missing item is the tier-3 photo. -/
def t3OnlyBill : BillVerdict :=
  { reason := "missing_photos", missing := ["electric_3"] }

/-- A bill verdict with a further missing item besides the tier-3 photo. -/
def coldMissingBill : BillVerdict :=
  { reason := "missing_photos", missing := ["cold_1", "electric_3"] }

/-- Witness for C9: the action is offered and succeeds when only the tier-3
photo is missing, and is rejected when the cold photo is missing too. -/
theorem send_without_t3_offered_iff_sole_t3_missing_witness :
    offersSendWithoutT3 t3OnlyBill = true ∧
    sendWithoutT3Transition t3OnlyBill {} 5 =
      Except.ok { approved_at := some 5, sent_at := some 5 } ∧
    sendWithoutT3Transition coldMissingBill {} 5 =
      Except.error "IllegalTransition" := by
  refine ⟨?_, ?_, ?_⟩
  · exact (send_without_t3_offered_iff_sole_t3_missing t3OnlyBill {} 5).1.mpr
      ⟨rfl, rfl⟩
  · exact (send_without_t3_offered_iff_sole_t3_missing t3OnlyBill {} 5).2.2
      ⟨rfl, rfl⟩
  · exact (send_without_t3_offered_iff_sole_t3_missing coldMissingBill {} 5).2.1
      (by decide)

end RentV7
